import Mathlib

/-!
Verification of the Plateful recipe resolution pipeline.

This file gives a shallow embedding, in Lean 4, of the parts of the
Plateful API that implement the recipe resolution pipeline:

- the specialty equipment detector and the unavailable-equipment hard
  filter (`services/equipment-filter.ts`, the current version that uses
  the shared `SPECIALTY_EQUIPMENT` vocabulary);
- the per-candidate body and the failover loop of the
  `POST /generate-recipe` handler (candidate loop, content length floor,
  formatting, equipment gate, ingredient gate with mandatory
  substitution and re-verification, exhaustion reporting);
- the dedup-and-store step of the same handler (the result resolver);
- the post-processing of `searchRecipe` results (JSON validation path
  and URL-extraction fallback path of `services/recipe-search.ts`).

External fallible calls (URL parsing, scraping, AI formatting, AI
ingredient substitution) are modelled as oracle functions bundled in a
`PipelineEnv`; theorems about the loop are proved for arbitrary oracles,
so they hold for every behaviour of the external collaborators.

JavaScript strings are modelled as Lean `String`; `toLowerCase` is
modelled as character-wise lowering, and `String.prototype.includes` as
list-infix containment on the character data.
-/

namespace Plateful

/-- Models `a.includes(b)` on JavaScript strings: `b` occurs as a
contiguous substring of `a`. -/
def containsSub (s pat : String) : Bool := decide (pat.data <:+: s.data)

/-- Models `s.toLowerCase()`: character-wise lowering. -/
def toLowerStr (s : String) : String := String.mk (s.data.map Char.toLower)

/-- Models `s.startsWith(p)`: `p` is a prefix of `s` (defined on the
character data so that it evaluates by reduction). -/
def startsWithStr (s p : String) : Bool := List.isPrefixOf p.data s.data

/-- Models `[...new Set(l)]`: removes duplicates keeping the first
occurrence of each element, in order. -/
def uniqueFirst (l : List String) : List String :=
  l.foldl (fun acc x => if acc.contains x then acc else acc ++ [x]) []

/-! ## Data model

Record types mirroring the TypeScript shapes used by the pipeline
(`RecipeSearchResult`, scrape results, `RecipeData` with its optional
substitution records, the stored `Recipe`, and the `FoodProfile`
snapshot). Optional JavaScript fields are `Option` fields.
-/

deriving instance DecidableEq for Except

/-- One candidate returned by `searchRecipe`: title, url, snippet. -/
structure RecipeSearchResult where
  title : String
  url : String
  snippet : String
  deriving DecidableEq

/-- Result of `scrapeRecipeContent`: extracted text and an optional
representative image URL. -/
structure ScrapeResult where
  content : String
  imageUrl : Option String
  deriving DecidableEq

/-- One substitution performed by the ingredient substitution service:
original ingredient, replacement, reason. -/
structure SubstitutionRecord where
  original : String
  replacement : String
  reason : String
  deriving DecidableEq

/-- Structured recipe data produced by `formatRecipe`. -/
structure RecipeData where
  title : String
  description : Option String
  portions : Nat
  ingredients : List String
  instructions : List String
  imageUrl : Option String
  substitutions : Option (List SubstitutionRecord)
  deriving DecidableEq

/-- The user profile snapshot read at the start of a resolution request
(fields the pipeline consults). -/
structure FoodProfile where
  likes : List String
  allergens : List String
  restrictions : List String
  unavailableEquipment : List String
  isPremium : Bool
  cookingProficiency : Option Nat
  deriving DecidableEq

/-- A stored recipe record as persisted by the generate-recipe handler. -/
structure Recipe where
  id : String
  userID : String
  recipeID : String
  recipeNameLower : String
  sourceUrlLower : String
  conversationID : Option String
  recipeData : RecipeData
  isSaved : Bool
  createdAt : String
  updatedAt : String
  hasSubstitutions : Bool
  deriving DecidableEq

/-! ## Equipment filter

Embedded from the current `services/equipment-filter.ts` (the version
importing `SPECIALTY_EQUIPMENT` from `@plateful/shared`; it matches the
handler, which notes that the preferred-equipment feature was removed).
-/

/-- The curated specialty equipment vocabulary, from
`packages/shared/src/constants/equipment.ts`. -/
def SPECIALTY_EQUIPMENT : List String :=
  [ "sous vide",
    "sous vide machine",
    "air fryer",
    "smoker",
    "stand mixer",
    "pasta maker",
    "bread maker",
    "juicer",
    "spiralizer",
    "tagine",
    "paella pan" ]

/-- The keyword scan loop of `detectEquipmentInRecipe`: for every
lowercased specialty keyword occurring in the instructions text, push
the original casing recovered by `find?` over `SPECIALTY_EQUIPMENT`
(the push loop is rendered as a `filterMap`). -/
def specialtyMatches (instructionsText : String) : List String :=
  (SPECIALTY_EQUIPMENT.map toLowerStr).filterMap fun keyword =>
    if containsSub instructionsText (toLowerStr keyword) then
      SPECIALTY_EQUIPMENT.find? fun e2 => toLowerStr e2 == toLowerStr keyword
    else none

/-- The sous vide variation check of `detectEquipmentInRecipe`: when
either spelling occurs in the instructions text and no found item
already mentions sous vide, push `"sous vide"`. -/
def addSousVide (instructionsText : String) (foundEquipment : List String) : List String :=
  if (containsSub instructionsText "sous vide" || containsSub instructionsText "sous-vide")
      && !(foundEquipment.any fun e2 => containsSub (toLowerStr e2) "sous vide") then
    foundEquipment ++ ["sous vide"]
  else foundEquipment

/-- `detectEquipmentInRecipe`: joins the instructions (only the
instructions; title and description are not inspected), lowercases the
text, collects every specialty keyword occurring in it, adds the sous
vide spelling variants, and deduplicates keeping first occurrences. -/
def detectEquipmentInRecipe (recipeData : RecipeData) : List String :=
  let instructionsText := toLowerStr (String.intercalate " " recipeData.instructions)
  if instructionsText = "" then []
  else uniqueFirst (addSousVide instructionsText (specialtyMatches instructionsText))

/-- `requiresUnavailableEquipment`: the hard equipment filter. Detects
specialty equipment in the recipe and tests for overlap with the
profile's unavailable equipment, case-insensitively, accepting an exact
match or a substring match in either direction. -/
def requiresUnavailableEquipment (recipeData : RecipeData) (profile : FoodProfile) : Bool :=
  if profile.unavailableEquipment.isEmpty then false
  else
    let recipeEquipment := detectEquipmentInRecipe recipeData
    if recipeEquipment.isEmpty then false
    else
      let unavailableLower := profile.unavailableEquipment.map toLowerStr
      recipeEquipment.any fun e2 =>
        let eqLower := toLowerStr e2
        unavailableLower.any fun unav =>
          eqLower == unav || containsSub eqLower unav || containsSub unav eqLower

/-! ## Ingredient detection -/

/-- Modelled from the spec: the function `detectDisallowedIngredients`
of `services/ingredient-substitution` is imported by the generate-recipe
handler, but its source file is not in the repository snapshot. Per the
spec (sections 4.4 and 8), it detects which of the profile's disallowed
terms (allergens together with restrictions) occur among the recipe's
ingredients, matching case-insensitively. -/
def detectDisallowedIngredients (recipeData : RecipeData) (profile : FoodProfile) : List String :=
  (profile.allergens ++ profile.restrictions).filter fun term =>
    recipeData.ingredients.any fun ing => containsSub (toLowerStr ing) (toLowerStr term)

/-! ## Failover orchestrator

Embedded from the candidate loop of the `POST /generate-recipe` handler.
The four external calls are oracle functions collected in a
`PipelineEnv`; every theorem below quantifies over the oracles, so it
holds for all behaviours of the external collaborators.
-/

/-- Output of the ingredient substitution service: the modified recipe
plus the list of substitutions that were made. -/
structure SubstitutionOutcome where
  recipeData : RecipeData
  substitutions : List SubstitutionRecord
  deriving DecidableEq

/-- The external operations the candidate loop invokes.
`parseUrl` models `new URL(url).hostname` (`none` models a thrown
`TypeError`, which escapes the per-candidate try block); the remaining
three model `scrapeRecipeContent`, `formatRecipe` and
`substituteIngredients`, each of which may reject. -/
structure PipelineEnv where
  parseUrl : String → Option String
  scrape : String → Except String ScrapeResult
  format : String → String → Option FoodProfile → Except String RecipeData
  substitute : RecipeData → FoodProfile → Except String SubstitutionOutcome

/-- The profile argument passed to `formatRecipe`: the handler computes
`profileForFormat = profile && profile.isPremium ? profile : null`. -/
def formatProfileArg (profile : Option FoodProfile) : Option FoodProfile :=
  match profile with
  | some p => if p.isPremium then some p else none
  | none => none

/-- After formatting, the handler copies the scraped image URL onto the
recipe when one was extracted (`if (scrapeResult.imageUrl) ...`). -/
def attachImage (rd : RecipeData) (scrapeResult : ScrapeResult) : RecipeData :=
  match scrapeResult.imageUrl with
  | some img => if img = "" then rd else { rd with imageUrl := some img }
  | none => rd

/-- The error message thrown when scraped content is below the 200
character floor. -/
def shortContentMsg (n : Nat) : String :=
  "Scraped content too short (" ++ toString n ++ " chars), likely failed"

/-- Result of evaluating one candidate in the loop body: `fatal` models
an exception escaping the per-candidate try block (invalid URL),
`failed` a caught per-candidate failure (the loop continues), `passed` a
candidate that cleared scraping, formatting and both gates. -/
inductive CandidateStep where
  | fatal (e : String)
  | failed (e : String)
  | passed (rd : RecipeData)
  deriving DecidableEq

/-- Step 5.5 of the handler, the ingredient gate body: when the profile
has allergens or restrictions, detect disallowed ingredients; when some
are found, invoke substitution (mandatory); reject if the substitution
pass reports zero replacements; re-run detection on the substituted
recipe and reject if any violation remains. -/
def ingredientGate (env : PipelineEnv) (p : FoodProfile) (recipeData : RecipeData) :
    CandidateStep :=
  if 0 < p.allergens.length ∨ 0 < p.restrictions.length then
    if detectDisallowedIngredients recipeData p = [] then .passed recipeData
    else
      match env.substitute recipeData p with
      | .error e => .failed e
      | .ok substitutionResult =>
        if substitutionResult.substitutions = [] then
          .failed "Unable to substitute disallowed ingredients"
        else if detectDisallowedIngredients substitutionResult.recipeData p ≠ [] then
          .failed "Substitution did not remove all disallowed ingredients"
        else .passed substitutionResult.recipeData
  else .passed recipeData

/-- Steps 5.25 and 5.5 of the handler: both gates are guarded by the
profile being non-null (`if (profile && ...)`); the equipment gate runs
first and rejects outright; then the ingredient gate runs. -/
def applyGates (env : PipelineEnv) (profile : Option FoodProfile)
    (recipeData : RecipeData) : CandidateStep :=
  match profile with
  | none => .passed recipeData
  | some p =>
    if requiresUnavailableEquipment recipeData p then
      .failed "Recipe requires unavailable equipment"
    else ingredientGate env p recipeData

/-- Handling of the `formatRecipe` result (step 5): a formatting error
fails the candidate; on success the scraped image is attached and the
gates run. -/
def afterFormat (env : PipelineEnv) (profile : Option FoodProfile)
    (scrapeResult : ScrapeResult) (r : Except String RecipeData) : CandidateStep :=
  match r with
  | .error e => .failed e
  | .ok rd0 => applyGates env profile (attachImage rd0 scrapeResult)

/-- Handling of the `scrapeRecipeContent` result (step 4): a scrape
error fails the candidate; content below the 200 character floor throws
(caught by the same per-candidate catch); otherwise the candidate is
formatted with the premium-gated profile argument. -/
def afterScrape (env : PipelineEnv) (profile : Option FoodProfile)
    (searchResult : RecipeSearchResult) (r : Except String ScrapeResult) : CandidateStep :=
  match r with
  | .error e => .failed e
  | .ok scrapeResult =>
    if scrapeResult.content.length < 200 then
      .failed (shortContentMsg scrapeResult.content.length)
    else
      afterFormat env profile scrapeResult
        (env.format scrapeResult.content searchResult.url (formatProfileArg profile))

/-- The body of one iteration of the candidate loop of the
generate-recipe handler: parse the URL (outside the try block, so a
parse failure is fatal to the whole request), then scrape, format and
run the gates. -/
def evalCandidate (env : PipelineEnv) (profile : Option FoodProfile)
    (searchResult : RecipeSearchResult) : CandidateStep :=
  match env.parseUrl searchResult.url with
  | none => .fatal "Invalid URL"
  | some _ => afterScrape env profile searchResult (env.scrape searchResult.url)

/-- Result of running the loop over the remaining candidates, carrying
the `lastError` accumulator. -/
inductive LoopResult where
  | success (rd : RecipeData) (url : String)
  | fatal (e : String)
  | exhausted (lastError : Option String)
  deriving DecidableEq

/-- The candidate loop: candidates are tried strictly in list order; a
failed candidate updates `lastError` and the loop advances; the first
passing candidate stops the loop with its recipe and URL. -/
def tryCandidates (env : PipelineEnv) (profile : Option FoodProfile) :
    List RecipeSearchResult → Option String → LoopResult
  | [], lastError => .exhausted lastError
  | searchResult :: rest, _lastError =>
    match evalCandidate env profile searchResult with
    | .fatal e => .fatal e
    | .failed e => tryCandidates env profile rest (some e)
    | .passed rd => .success rd searchResult.url


/-- Terminal outcome of the resolution loop. On exhaustion the handler
reports the URLs of all supplied candidates and the last error. -/
inductive ResolutionOutcome where
  | success (rd : RecipeData) (sourceUrl : String)
  | exhausted (lastError : Option String) (attemptedUrls : List String)
  | fatal (e : String)
  deriving DecidableEq

/-- The full failover drive over a fixed candidate list (handler steps 4
and 5 plus the exhaustion branch): run the loop from an empty
`lastError`; if no candidate passed, report exhaustion carrying the URLs
of every supplied candidate. -/
def generateRecipe (env : PipelineEnv) (profile : Option FoodProfile)
    (searchResults : List RecipeSearchResult) : ResolutionOutcome :=
  match tryCandidates env profile searchResults none with
  | .success rd url => .success rd url
  | .fatal e => .fatal e
  | .exhausted lastError => .exhausted lastError (searchResults.map fun r => r.url)

/-! ## Result resolver

Embedded from step 6 of the generate-recipe handler: dedup by
`(userID, lowercase(sourceUrl))` against the stored recipes, reuse an
existing record (attaching the conversation only when it has none), or
create and append a new record. The Cosmos container is modelled as a
list of records; `replace` is modelled as an in-place map keyed on
`(id, userID)` (the partition key), and `create` as an append. -/

/-- The dedup predicate of the duplicate-recipe query:
`c.userID = @userID AND c.sourceUrlLower = @sourceUrlLower`. -/
def matchesDedupKey (userID sourceUrlLower : String) (r : Recipe) : Bool :=
  r.userID == userID && r.sourceUrlLower == sourceUrlLower

/-- The new record built by the creation branch of the handler: id and
recipeID from the generated id, lowercased name and source URL, the
request's conversation, `isSaved` false, and `hasSubstitutions` copied
from whether the recipe data carries a non-empty substitution list. -/
def mkStoredRecipe (userID sourceUrl conversationID : String) (recipeData : RecipeData)
    (newRecipeID now : String) : Recipe :=
  { id := newRecipeID
    userID := userID
    recipeID := newRecipeID
    recipeNameLower := toLowerStr recipeData.title
    sourceUrlLower := toLowerStr sourceUrl
    conversationID := some conversationID
    recipeData := recipeData
    isSaved := false
    createdAt := now
    updatedAt := now
    hasSubstitutions := !(recipeData.substitutions.getD []).isEmpty }

/-- The dedup-and-store step. `newRecipeID` models the freshly generated
id and `now` the current timestamp. Returns the resolved record and the
updated store. When a matching record exists the first one is reused,
and the conversation is attached (persisted via a replace keyed on id
and partition) only when the record has none. -/
def resolveRecipe (store : List Recipe) (userID sourceUrl conversationID : String)
    (recipeData : RecipeData) (newRecipeID now : String) : Recipe × List Recipe :=
  match store.filter (matchesDedupKey userID (toLowerStr sourceUrl)) with
  | existing :: _ =>
    match existing.conversationID with
    | none =>
      ({ existing with conversationID := some conversationID },
       store.map fun x =>
         if x.id == existing.id && x.userID == userID then
           { existing with conversationID := some conversationID }
         else x)
    | some _ => (existing, store)
  | [] =>
    (mkStoredRecipe userID sourceUrl conversationID recipeData newRecipeID now,
     store ++ [mkStoredRecipe userID sourceUrl conversationID recipeData newRecipeID now])

/-! ## Candidate search post-processing

Embedded from `services/recipe-search.ts`: the validation of the parsed
JSON response and the URL-extraction fallback (lines 183 to 267). The
upstream AI call, the JSON parser and the regular-expression URL
extraction are external; the embedding takes the parsed entry list
(respectively the cleaned URL match list) as input and models the
processing the source applies to it.
-/

/-- A raw entry of the parsed JSON array. Any of the fields may be
missing; a `none` list element models a non-object entry (JavaScript
falsy `r`). -/
structure ParsedRecipeEntry where
  title : Option String
  url : Option String
  snippet : Option String
  deriving DecidableEq

/-- The validation filter `results.filter(r => r && r.url && r.title)`:
keeps the entries whose url and title are present and non-empty
(JavaScript truthiness on strings). -/
def validEntry (r : Option ParsedRecipeEntry) : Option RecipeSearchResult :=
  match r with
  | none => none
  | some e2 =>
    match e2.url, e2.title with
    | some u, some t =>
      if u = "" ∨ t = "" then none
      else some { title := t, url := u, snippet := e2.snippet.getD "" }
    | _, _ => none

/-- The valid results surviving the JSON-path validation filter. -/
def validSearchEntries (parsed : List (Option ParsedRecipeEntry)) : List RecipeSearchResult :=
  parsed.filterMap validEntry

/-- The JSON path of `searchRecipe` result handling: filter the parsed
entries and throw when no valid result remains (the thrown error is
caught by the fallback path in the source; here the path is modelled on
its own). -/
def searchRecipeJsonPath (parsed : List (Option ParsedRecipeEntry)) :
    Except String (List RecipeSearchResult) :=
  match validSearchEntries parsed with
  | [] => .error "No valid recipe results found in parsed JSON"
  | validResults => .ok validResults

/-- `url.startsWith('http') ? url : 'https://' + url` applied to each
fallback URL. -/
def cleanUrl (url : String) : String :=
  if startsWithStr url "http" then url else "https://" ++ url

/-- The domains of the known-recipe-site alternation in the fallback
filter regex. -/
def recipeSiteNames : List String :=
  [ "food52", "seriouseats", "allrecipes", "foodnetwork", "tasty",
    "bonappetit", "epicurious", "thekitchn", "bbcgoodfood", "jamieoliver",
    "delish", "tasteofhome", "simplyrecipes", "minimalistbaker",
    "cookieandkate", "pinchofyum" ]

/-- The fallback filter keeping recipe-like URLs: the lowercased URL
contains a recipe keyword or a known recipe site domain. -/
def isRecipeLikeUrl (url : String) : Bool :=
  let lowerUrl := toLowerStr url
  containsSub lowerUrl "recipe"
    || containsSub lowerUrl "cooking"
    || containsSub lowerUrl "food"
    || containsSub lowerUrl "/recipes/"
    || recipeSiteNames.any fun nm => containsSub lowerUrl (nm ++ ".com")

/-- The URL-extraction fallback path of `searchRecipe` (lines 242 to
267): given the cleaned URL matches, keep the recipe-like ones (falling
back to the first five matches when none is recipe-like) and build each
candidate with the original search query as its title and a fixed
snippet; throw when no URL was extracted at all. -/
def searchRecipeFallback (searchQuery : String) (urlMatches : List String) :
    Except String (List RecipeSearchResult) :=
  match urlMatches with
  | [] => .error "No recipe URL found in search results. The search API may have returned an unexpected format."
  | _ :: _ =>
    let recipeUrls := urlMatches.filter isRecipeLikeUrl
    let finalUrls := if recipeUrls = [] then urlMatches.take 5 else recipeUrls
    .ok (finalUrls.map fun url =>
      { title := searchQuery, url := cleanUrl url, snippet := "Recipe found via web search" })

/-! ## Concrete fixtures

Small concrete profiles, recipes, candidates and oracle environments
used to evaluate the definitions on explicit inputs.
-/

/-- A 200 character content string: exactly at the scrape floor. -/
def longContent : String := String.mk (List.replicate 200 'a')

/-- A scrape result meeting the content floor, with no image. -/
def scrOk : ScrapeResult := { content := longContent, imageUrl := none }

/-- A scrape result far below the 200 character floor. -/
def scrShort : ScrapeResult := { content := "hello", imageUrl := none }

/-- A recipe containing no allergen of the fixtures and no specialty
equipment. -/
def rdClean : RecipeData :=
  { title := "Beef Stew", description := none, portions := 2,
    ingredients := ["beef", "water", "salt"],
    instructions := ["simmer in a pot"],
    imageUrl := none, substitutions := none }

/-- A recipe whose ingredients contain the fixture allergen term. -/
def rdPeanut : RecipeData :=
  { title := "Peanut Stew", description := none, portions := 2,
    ingredients := ["peanut butter", "water"],
    instructions := ["mix in a pot"],
    imageUrl := none, substitutions := none }

/-- A recipe whose instructions mention specialty equipment. -/
def rdFryer : RecipeData :=
  { title := "Crispy Fries", description := none, portions := 2,
    ingredients := ["potato"],
    instructions := ["cook in the air fryer"],
    imageUrl := none, substitutions := none }

/-- Same instructions as `rdFryer` with a different title and
description. -/
def rdFryerTitled : RecipeData :=
  { rdFryer with title := "Air Fryer Fries", description := some "made in an air fryer" }

/-- Candidate fixtures. -/
def candA : RecipeSearchResult :=
  { title := "Stew A", url := "https://a.example/stew", snippet := "first" }

def candB : RecipeSearchResult :=
  { title := "Stew B", url := "https://b.example/stew", snippet := "second" }

def candC : RecipeSearchResult :=
  { title := "Stew C", url := "https://c.example/stew", snippet := "third" }

/-- An environment whose oracles always succeed, formatting every
candidate to `rd`; substitution reports zero replacements. -/
def envOk (rd : RecipeData) : PipelineEnv :=
  { parseUrl := fun _ => some "example.com"
    scrape := fun _ => .ok scrOk
    format := fun _ _ _ => .ok rd
    substitute := fun rdx _ => .ok { recipeData := rdx, substitutions := [] } }

/-- An environment whose scrape oracle always rejects. -/
def envScrapeFail : PipelineEnv :=
  { envOk rdClean with scrape := fun _ => .error "HTTP 403 forbidden" }

/-- An environment whose scrape oracle returns content below the
floor. -/
def envShort : PipelineEnv :=
  { envOk rdClean with scrape := fun _ => .ok scrShort }

/-- An environment where the candidate at `candB.url` fails scraping
and every other candidate succeeds with `rdClean`. -/
def envMixed : PipelineEnv :=
  { envOk rdClean with
    scrape := fun u => if u = candB.url then .error "HTTP 403 forbidden" else .ok scrOk }

/-- A premium profile with one allergen. -/
def profPremiumPeanut : FoodProfile :=
  { likes := [], allergens := ["peanut"], restrictions := [],
    unavailableEquipment := [], isPremium := true, cookingProficiency := none }

/-- The same profile with premium off. -/
def profFreePeanut : FoodProfile := { profPremiumPeanut with isPremium := false }

/-- A non-premium profile whose only constraint is unavailable
equipment. -/
def profFryerless : FoodProfile :=
  { likes := [], allergens := [], restrictions := [],
    unavailableEquipment := ["air fryer"], isPremium := false, cookingProficiency := none }

/-- A stored recipe with no conversation attached, for the reuse
branch. -/
def recStored : Recipe :=
  { id := "r0", userID := "uS", recipeID := "r0",
    recipeNameLower := "beef stew",
    sourceUrlLower := "https://s.example/r",
    conversationID := none, recipeData := rdClean, isSaved := false,
    createdAt := "t0", updatedAt := "t0", hasSubstitutions := false }

/-- A parsed JSON entry with url and title present. -/
def jsonEntryW : Option ParsedRecipeEntry :=
  some { title := some "Tasty", url := some "https://a.com/x", snippet := none }

/-- The candidate the JSON path produces from `jsonEntryW`. -/
def jsonResultW : RecipeSearchResult :=
  { title := "Tasty", url := "https://a.com/x", snippet := "" }

/-- The candidate the fallback path produces from the match
`"b.com/food"` for the query `"pasta"`. -/
def fallbackResultW : RecipeSearchResult :=
  { title := "pasta", url := "https://b.com/food", snippet := "Recipe found via web search" }

/-! ## Helper lemmas -/

theorem foldl_dedup_mem (l : List String) :
    ∀ (acc : List String) (x : String),
      x ∈ l.foldl (fun acc x => if acc.contains x then acc else acc ++ [x]) acc →
      x ∈ acc ∨ x ∈ l := by
  induction l with
  | nil => intro acc x h; simp only [List.foldl_nil] at h; exact Or.inl h
  | cons y ys ih =>
    intro acc x h
    simp only [List.foldl_cons] at h
    rcases ih _ x h with h1 | h1
    · by_cases hc : acc.contains y
      · simp only [hc, if_pos] at h1
        exact Or.inl h1
      · simp only [hc, if_neg, Bool.false_eq_true, not_false_eq_true, List.mem_append,
          List.mem_singleton] at h1
        rcases h1 with h1 | h1
        · exact Or.inl h1
        · exact Or.inr (h1 ▸ List.mem_cons_self y ys)
    · exact Or.inr (List.mem_cons_of_mem y h1)

theorem uniqueFirst_subset {l : List String} {x : String} (h : x ∈ uniqueFirst l) : x ∈ l := by
  rcases foldl_dedup_mem l [] x h with h1 | h1
  · simp at h1
  · exact h1

theorem specialtyMatches_subset {t x : String} (h : x ∈ specialtyMatches t) :
    x ∈ SPECIALTY_EQUIPMENT := by
  rw [specialtyMatches] at h
  rcases List.mem_filterMap.mp h with ⟨kw, _, hval⟩
  by_cases hc : containsSub t (toLowerStr kw)
  · rw [if_pos hc] at hval
    exact List.mem_of_find?_eq_some hval
  · rw [if_neg hc] at hval
    cases hval

theorem addSousVide_subset {t : String} {l : List String} {x : String}
    (h : x ∈ addSousVide t l) : x ∈ l ∨ x = "sous vide" := by
  rw [addSousVide] at h
  split at h
  · rcases List.mem_append.mp h with h1 | h1
    · exact Or.inl h1
    · exact Or.inr (List.mem_singleton.mp h1)
  · exact Or.inl h

theorem detectEquipment_subset {rd : RecipeData} {x : String}
    (h : x ∈ detectEquipmentInRecipe rd) : x ∈ SPECIALTY_EQUIPMENT := by
  rw [detectEquipmentInRecipe] at h
  split at h
  · cases h
  · rcases addSousVide_subset (uniqueFirst_subset h) with h1 | h1
    · exact specialtyMatches_subset h1
    · rw [h1]; decide

theorem ingredientGate_passed_detect (env : PipelineEnv) (p : FoodProfile)
    (rdX rd : RecipeData)
    (hgate : 0 < p.allergens.length ∨ 0 < p.restrictions.length)
    (h : ingredientGate env p rdX = .passed rd) :
    detectDisallowedIngredients rd p = [] := by
  rw [ingredientGate, if_pos hgate] at h
  by_cases hdis : detectDisallowedIngredients rdX p = []
  · rw [if_pos hdis] at h
    simp only [CandidateStep.passed.injEq] at h
    rw [← h]
    exact hdis
  · rw [if_neg hdis] at h
    split at h
    · simp at h
    · rename_i so heq
      by_cases hempty : so.substitutions = []
      · rw [if_pos hempty] at h
        simp at h
      · rw [if_neg hempty] at h
        by_cases hrem : detectDisallowedIngredients so.recipeData p ≠ []
        · rw [if_pos hrem] at h
          simp at h
        · rw [if_neg hrem] at h
          simp only [CandidateStep.passed.injEq] at h
          rw [← h]
          exact not_ne_iff.mp hrem

theorem applyGates_passed_detect (env : PipelineEnv) (p : FoodProfile)
    (rdX rd : RecipeData)
    (hgate : 0 < p.allergens.length ∨ 0 < p.restrictions.length)
    (h : applyGates env (some p) rdX = .passed rd) :
    detectDisallowedIngredients rd p = [] := by
  rw [applyGates.eq_def] at h
  split at h
  case h_1 heq => cases heq
  rename_i q heq
  injection heq with heqp
  subst heqp
  by_cases hreq : requiresUnavailableEquipment rdX p = true
  · rw [if_pos hreq] at h
    simp at h
  · rw [if_neg hreq] at h
    exact ingredientGate_passed_detect env p rdX rd hgate h

theorem evalCandidate_passed_detect (env : PipelineEnv) (p : FoodProfile)
    (sr : RecipeSearchResult) (rd : RecipeData)
    (hgate : 0 < p.allergens.length ∨ 0 < p.restrictions.length)
    (h : evalCandidate env (some p) sr = .passed rd) :
    detectDisallowedIngredients rd p = [] := by
  unfold evalCandidate at h
  split at h
  · simp at h
  rw [afterScrape.eq_def] at h
  split at h
  · simp at h
  rename_i scr heq
  by_cases hlen : scr.content.length < 200
  · rw [if_pos hlen] at h
    simp at h
  · rw [if_neg hlen] at h
    rw [afterFormat.eq_def] at h
    split at h
    · simp at h
    · rename_i rd0 heq2
      exact applyGates_passed_detect env p (attachImage rd0 scr) rd hgate h

theorem tryCandidates_success_mem (env : PipelineEnv) (p : Option FoodProfile) :
    ∀ (l : List RecipeSearchResult) (le : Option String) (rd : RecipeData) (url : String),
      tryCandidates env p l le = .success rd url →
      ∃ sr ∈ l, evalCandidate env p sr = .passed rd ∧ url = sr.url := by
  intro l
  induction l with
  | nil => intro le rd url h; simp [tryCandidates] at h
  | cons sr rest ih =>
    intro le rd url h
    rw [tryCandidates] at h
    cases hev : evalCandidate env p sr <;> rw [hev] at h
    · simp at h
    · rcases ih _ rd url h with ⟨sr2, hmem, hpass, hurl⟩
      exact ⟨sr2, List.mem_cons_of_mem sr hmem, hpass, hurl⟩
    · simp only [LoopResult.success.injEq] at h
      exact ⟨sr, List.mem_cons_self sr rest, by rw [hev, h.1], h.2.symm⟩

theorem generateRecipe_success_loop (env : PipelineEnv) (p : Option FoodProfile)
    (results : List RecipeSearchResult) (rd : RecipeData) (url : String)
    (h : generateRecipe env p results = .success rd url) :
    tryCandidates env p results none = .success rd url := by
  unfold generateRecipe at h
  split at h
  · rename_i heq
    simp only [ResolutionOutcome.success.injEq] at h
    rw [heq, h.1, h.2]
  · simp at h
  · simp at h

theorem success_no_disallowed (env : PipelineEnv) (p : FoodProfile)
    (results : List RecipeSearchResult) (rd : RecipeData) (url : String)
    (hne : p.allergens ≠ [] ∨ p.restrictions ≠ [])
    (h : generateRecipe env (some p) results = .success rd url) :
    ∀ term ∈ p.allergens ++ p.restrictions, ∀ ing ∈ rd.ingredients,
      containsSub (toLowerStr ing) (toLowerStr term) = false := by
  have hloop := generateRecipe_success_loop env (some p) results rd url h
  rcases tryCandidates_success_mem env (some p) results none rd url hloop with ⟨sr, _, hpass, _⟩
  have hgate : 0 < p.allergens.length ∨ 0 < p.restrictions.length := by
    rcases hne with h1 | h1
    · exact Or.inl (List.length_pos.mpr h1)
    · exact Or.inr (List.length_pos.mpr h1)
  have hdet := evalCandidate_passed_detect env p sr rd hgate hpass
  rw [detectDisallowedIngredients] at hdet
  intro term hterm ing hing
  have hterm2 := List.filter_eq_nil_iff.mp hdet term hterm
  simp only [Bool.not_eq_true, List.any_eq_false] at hterm2
  exact hterm2 ing hing

theorem tryCandidates_append_failed (env : PipelineEnv) (p : Option FoodProfile) :
    ∀ (pre : List RecipeSearchResult),
      (∀ sr ∈ pre, ∃ e, evalCandidate env p sr = .failed e) →
      ∀ (l : List RecipeSearchResult) (le : Option String),
        ∃ le2, tryCandidates env p (pre ++ l) le = tryCandidates env p l le2 := by
  intro pre
  induction pre with
  | nil => intro _ l le; exact ⟨le, rfl⟩
  | cons sr rest ih =>
    intro hall l le
    rcases hall sr (List.mem_cons_self sr rest) with ⟨e, he⟩
    rcases ih (fun sr2 h2 => hall sr2 (List.mem_cons_of_mem sr h2)) l (some e) with ⟨le2, hle⟩
    refine ⟨le2, ?_⟩
    rw [List.cons_append, tryCandidates, he]
    exact hle

theorem tryCandidates_all_failed (env : PipelineEnv) (p : Option FoodProfile) :
    ∀ (l : List RecipeSearchResult),
      (∀ sr ∈ l, ∃ e, evalCandidate env p sr = .failed e) →
      ∀ e0, ∃ e, tryCandidates env p l (some e0) = .exhausted (some e) := by
  intro l
  induction l with
  | nil => intro _ e0; exact ⟨e0, rfl⟩
  | cons sr rest ih =>
    intro hall e0
    rcases hall sr (List.mem_cons_self sr rest) with ⟨e, he⟩
    rcases ih (fun sr2 h2 => hall sr2 (List.mem_cons_of_mem sr h2)) e with ⟨e2, hle⟩
    refine ⟨e2, ?_⟩
    rw [tryCandidates, he]
    exact hle

theorem evalCandidate_eq_applyGates (env : PipelineEnv) (profile : Option FoodProfile)
    (sr : RecipeSearchResult) (d : String) (scr : ScrapeResult) (rd0 : RecipeData)
    (hurl : env.parseUrl sr.url = some d)
    (hscr : env.scrape sr.url = .ok scr)
    (hlen : ¬scr.content.length < 200)
    (hfmt : env.format scr.content sr.url (formatProfileArg profile) = .ok rd0) :
    evalCandidate env profile sr = applyGates env profile (attachImage rd0 scr) := by
  unfold evalCandidate
  rw [hurl]
  show afterScrape env profile sr (env.scrape sr.url)
    = applyGates env profile (attachImage rd0 scr)
  rw [hscr]
  simp only [afterScrape]
  rw [if_neg hlen, hfmt]
  simp only [afterFormat]

theorem evalCandidate_short_content (env : PipelineEnv) (profile : Option FoodProfile)
    (sr : RecipeSearchResult) (d : String) (scr : ScrapeResult)
    (hurl : env.parseUrl sr.url = some d)
    (hscr : env.scrape sr.url = .ok scr)
    (hshort : scr.content.length < 200) :
    evalCandidate env profile sr = .failed (shortContentMsg scr.content.length) := by
  unfold evalCandidate
  rw [hurl]
  show afterScrape env profile sr (env.scrape sr.url)
    = .failed (shortContentMsg scr.content.length)
  rw [hscr]
  simp only [afterScrape]
  rw [if_pos hshort]

theorem cleanUrl_ne_empty (url : String) : cleanUrl url ≠ "" := by
  rw [cleanUrl]
  split
  · rename_i hs
    intro he
    rw [he] at hs
    exact absurd hs (by decide)
  · intro he
    have hd := congrArg String.data he
    rw [String.data_append] at hd
    rcases List.append_eq_nil.mp hd with ⟨h1, _⟩
    exact absurd h1 (by decide)

/-! ## Claims -/

set_option linter.unusedVariables false in
/-- Claim C1: for every premium profile with non-empty allergens or
restrictions, every successful resolution outcome contains a recipe
whose ingredients include none of the profile's disallowed terms — the
ingredient gate detects violations after formatting, substitutes,
re-runs detection, and rejects the candidate on any remaining violation
or on a zero-replacement substitution pass. Proved for arbitrary
oracles. -/
theorem claim_C1_safety_invariant (env : PipelineEnv) (p : FoodProfile)
    (results : List RecipeSearchResult) (rd : RecipeData) (url : String)
    (hprem : p.isPremium = true)
    (hne : p.allergens ≠ [] ∨ p.restrictions ≠ [])
    (h : generateRecipe env (some p) results = .success rd url) :
    ∀ term ∈ p.allergens ++ p.restrictions, ∀ ing ∈ rd.ingredients,
      containsSub (toLowerStr ing) (toLowerStr term) = false :=
  success_no_disallowed env p results rd url hne h

set_option maxRecDepth 8000 in
/-- Witness for C1 at a concrete premium profile, candidate and
oracles: the successful recipe's ingredient `"beef"` does not contain
the allergen term `"peanut"`. -/
theorem claim_C1_witness :
    containsSub (toLowerStr "beef") (toLowerStr "peanut") = false :=
  claim_C1_safety_invariant (envOk rdClean) profPremiumPeanut [candA] rdClean
    candA.url rfl (Or.inl (by decide)) (by decide)
    "peanut" (by decide) "beef" (by decide)

set_option maxRecDepth 8000 in
/-- Counterexample to claim C2 as stated: a non-premium profile with
allergens does NOT have the ingredient gate skipped. With oracles that
scrape and format successfully to a recipe containing the allergen and
a substitution pass reporting zero replacements, the candidate is
rejected and the request exhausts, instead of the candidate being
accepted as the claim requires. -/
theorem claim_C2_counterexample :
    generateRecipe (envOk rdPeanut) (some profFreePeanut) [candA]
      = .exhausted (some "Unable to substitute disallowed ingredients")
          ["https://a.example/stew"] := by
  decide

set_option linter.unusedVariables false in
/-- Claim C2 (amended): the ingredient gate is guarded only by the
profile being present with non-empty allergens or restrictions — it is
not gated on `isPremium` (only the profile argument passed to search and
formatting is premium-gated). Hence even for a non-premium profile a
successful outcome contains no disallowed terms. -/
theorem claim_C2_gate_ignores_premium (env : PipelineEnv) (p : FoodProfile)
    (results : List RecipeSearchResult) (rd : RecipeData) (url : String)
    (hfree : p.isPremium = false)
    (hne : p.allergens ≠ [] ∨ p.restrictions ≠ [])
    (h : generateRecipe env (some p) results = .success rd url) :
    ∀ term ∈ p.allergens ++ p.restrictions, ∀ ing ∈ rd.ingredients,
      containsSub (toLowerStr ing) (toLowerStr term) = false :=
  success_no_disallowed env p results rd url hne h

set_option maxRecDepth 8000 in
/-- Witness for the amended C2 at a concrete non-premium profile: the
successful recipe's ingredient `"water"` does not contain the allergen
term `"peanut"`. -/
theorem claim_C2_witness :
    containsSub (toLowerStr "water") (toLowerStr "peanut") = false :=
  claim_C2_gate_ignores_premium (envOk rdClean) profFreePeanut [candA] rdClean
    candA.url rfl (Or.inl (by decide)) (by decide)
    "peanut" (by decide) "water" (by decide)

/-- Claim C3: for every profile (premium or not), a successfully
formatted candidate whose detected specialty equipment overlaps the
profile's unavailable equipment is rejected outright: the candidate
fails with the equipment error for EVERY substitution oracle (no
substitution is attempted for equipment), and the loop advances past it
(it is never returned as a success). -/
theorem claim_C3_equipment_hard_filter (env : PipelineEnv) (p : FoodProfile)
    (sr : RecipeSearchResult) (d : String) (scr : ScrapeResult) (rd0 : RecipeData)
    (hurl : env.parseUrl sr.url = some d)
    (hscr : env.scrape sr.url = .ok scr)
    (hlen : ¬scr.content.length < 200)
    (hfmt : env.format scr.content sr.url (formatProfileArg (some p)) = .ok rd0)
    (hequip : requiresUnavailableEquipment (attachImage rd0 scr) p = true) :
    (∀ sub, evalCandidate { env with substitute := sub } (some p) sr
        = .failed "Recipe requires unavailable equipment")
    ∧ ∀ (rest : List RecipeSearchResult) (le : Option String),
        tryCandidates env (some p) (sr :: rest) le
          = tryCandidates env (some p) rest (some "Recipe requires unavailable equipment") := by
  have hmain : ∀ sub, evalCandidate { env with substitute := sub } (some p) sr
      = .failed "Recipe requires unavailable equipment" := by
    intro sub
    have heq := evalCandidate_eq_applyGates { env with substitute := sub } (some p)
      sr d scr rd0 hurl hscr hlen hfmt
    rw [heq]
    simp only [applyGates]
    rw [if_pos hequip]
  refine ⟨hmain, fun rest le => ?_⟩
  have henv : evalCandidate env (some p) sr
      = .failed "Recipe requires unavailable equipment" := hmain env.substitute
  rw [tryCandidates, henv]

set_option maxRecDepth 8000 in
/-- Witness for C3 at a concrete profile lacking an air fryer and a
candidate whose instructions use one: the candidate fails with the
equipment error for a substitution oracle that would otherwise succeed,
and the loop advances. -/
theorem claim_C3_witness :
    evalCandidate
        { envOk rdFryer with substitute := fun rdx _ => .ok { recipeData := rdx, substitutions := [] } }
        (some profFryerless) candA
      = .failed "Recipe requires unavailable equipment"
    ∧ tryCandidates (envOk rdFryer) (some profFryerless) [candA] none
      = tryCandidates (envOk rdFryer) (some profFryerless) []
          (some "Recipe requires unavailable equipment") :=
  ⟨(claim_C3_equipment_hard_filter (envOk rdFryer) profFryerless candA "example.com"
      scrOk rdFryer rfl rfl (by decide) rfl (by decide)).1
      (fun rdx _ => .ok { recipeData := rdx, substitutions := [] }),
   (claim_C3_equipment_hard_filter (envOk rdFryer) profFryerless candA "example.com"
      scrOk rdFryer rfl rfl (by decide) rfl (by decide)).2 [] none⟩

/-- Claim C4: equipment detection scans only the recipe's instructions
(two recipes with the same instructions produce the same detection
result, whatever their titles and descriptions), and everything it
detects belongs to the curated specialty equipment vocabulary. -/
theorem claim_C4_detection_scope :
    (∀ rd1 rd2 : RecipeData, rd1.instructions = rd2.instructions →
        detectEquipmentInRecipe rd1 = detectEquipmentInRecipe rd2)
    ∧ ∀ (rd : RecipeData), ∀ e2 ∈ detectEquipmentInRecipe rd,
        e2 ∈ SPECIALTY_EQUIPMENT := by
  constructor
  · intro rd1 rd2 hins
    rw [detectEquipmentInRecipe, detectEquipmentInRecipe, hins]
  · intro rd e2 he2
    exact detectEquipment_subset he2

/-- Witness for C4: a titled and an untitled recipe with identical
instructions yield the same detection, and the detected `"air fryer"`
is in the vocabulary. -/
theorem claim_C4_witness :
    detectEquipmentInRecipe rdFryerTitled = detectEquipmentInRecipe rdFryer
    ∧ "air fryer" ∈ SPECIALTY_EQUIPMENT :=
  ⟨claim_C4_detection_scope.1 rdFryerTitled rdFryer rfl,
   claim_C4_detection_scope.2 rdFryer "air fryer" (by decide)⟩

/-- Claim C5: the failover loop tries candidates strictly in list order
and halts at the first passing candidate: whenever every candidate of a
prefix fails and the next candidate passes, the outcome is success with
that candidate's recipe and URL, for EVERY list of later candidates
(later candidates are never evaluated or returned). -/
theorem claim_C5_first_success_halts (env : PipelineEnv) (p : Option FoodProfile)
    (pre rest : List RecipeSearchResult) (c : RecipeSearchResult) (rd : RecipeData)
    (hpre : ∀ sr ∈ pre, ∃ e, evalCandidate env p sr = .failed e)
    (hc : evalCandidate env p c = .passed rd) :
    generateRecipe env p (pre ++ c :: rest) = .success rd c.url := by
  rcases tryCandidates_append_failed env p pre hpre (c :: rest) none with ⟨le2, hle⟩
  have hstep : tryCandidates env p (c :: rest) le2 = .success rd c.url := by
    rw [tryCandidates, hc]
  unfold generateRecipe
  rw [hle, hstep]

set_option maxRecDepth 8000 in
/-- Witness for C5: the first candidate fails scraping, the second
passes, and a third (which would also pass) is present but never
reached; the outcome is bound to the second candidate's URL. -/
theorem claim_C5_witness :
    generateRecipe envMixed none ([candB] ++ candA :: [candC])
      = .success rdClean candA.url :=
  claim_C5_first_success_halts envMixed none [candB] [candC] candA rdClean
    (by
      intro sr hsr
      rw [List.mem_singleton] at hsr
      subst hsr
      exact ⟨"HTTP 403 forbidden", by decide⟩)
    (by decide)

/-- Claim C6: when every supplied candidate fails, the outcome is
exhaustion carrying an attempted URL list of the same length as the
candidate list (one URL per supplied candidate) and a non-null last
error. -/
theorem claim_C6_exhaustion_reporting (env : PipelineEnv) (p : Option FoodProfile)
    (candidates : List RecipeSearchResult)
    (hne : candidates ≠ [])
    (hall : ∀ sr ∈ candidates, ∃ e, evalCandidate env p sr = .failed e) :
    ∃ e, generateRecipe env p candidates
        = .exhausted (some e) (candidates.map fun r => r.url)
      ∧ (candidates.map fun r => r.url).length = candidates.length := by
  cases candidates with
  | nil => exact absurd rfl hne
  | cons sr rest =>
    rcases hall sr (List.mem_cons_self sr rest) with ⟨e0, he0⟩
    rcases tryCandidates_all_failed env p rest
      (fun s hs => hall s (List.mem_cons_of_mem sr hs)) e0 with ⟨e, he⟩
    refine ⟨e, ?_, by simp⟩
    have hstep : tryCandidates env p (sr :: rest) none = .exhausted (some e) := by
      rw [tryCandidates, he0]
      exact he
    unfold generateRecipe
    rw [hstep]

set_option maxRecDepth 8000 in
/-- Witness for C6: two candidates, both failing with a 403 scrape
error; the outcome is exhaustion with both URLs and the last error. -/
theorem claim_C6_witness :
    generateRecipe envScrapeFail none [candA, candB]
      = .exhausted (some "HTTP 403 forbidden") [candA.url, candB.url]
    ∧ ([candA, candB].map fun r => r.url).length = 2 := by
  obtain ⟨e, he, hl⟩ := claim_C6_exhaustion_reporting envScrapeFail none [candA, candB]
    (by decide)
    (by
      intro sr hsr
      exact ⟨"HTTP 403 forbidden", by
        rcases List.mem_cons.mp hsr with h1 | h1
        · subst h1; decide
        · rw [List.mem_singleton] at h1; subst h1; decide⟩)
  have hc : generateRecipe envScrapeFail none [candA, candB]
      = .exhausted (some "HTTP 403 forbidden") [candA.url, candB.url] := by decide
  exact ⟨hc, hl⟩

/-- Claim C8: a scrape whose content is below 200 characters fails the
candidate (never a success with short data), and the failover advances
to the next candidate carrying the short-content error. -/
theorem claim_C8_content_floor (env : PipelineEnv) (p : Option FoodProfile)
    (sr : RecipeSearchResult) (d : String) (scr : ScrapeResult)
    (rest : List RecipeSearchResult) (le : Option String)
    (hurl : env.parseUrl sr.url = some d)
    (hscr : env.scrape sr.url = .ok scr)
    (hshort : scr.content.length < 200) :
    evalCandidate env p sr = .failed (shortContentMsg scr.content.length)
    ∧ tryCandidates env p (sr :: rest) le
        = tryCandidates env p rest (some (shortContentMsg scr.content.length)) := by
  have h1 := evalCandidate_short_content env p sr d scr hurl hscr hshort
  refine ⟨h1, ?_⟩
  rw [tryCandidates, h1]

/-- Witness for C8: a 5 character scrape fails the candidate with the
short-content error and the loop advances. -/
theorem claim_C8_witness :
    evalCandidate envShort none candA = .failed (shortContentMsg scrShort.content.length)
    ∧ tryCandidates envShort none [candA] none
        = tryCandidates envShort none [] (some (shortContentMsg scrShort.content.length)) :=
  claim_C8_content_floor envShort none candA "example.com" scrShort [] none
    rfl rfl (by decide)

/-- Claim C9: with no user profile, both gates are skipped: any
candidate that scrapes with enough content and formats successfully
passes with the formatted recipe (image attached), whatever its
ingredients or equipment, and the loop accepts it. -/
theorem claim_C9_no_profile_no_gates (env : PipelineEnv)
    (sr : RecipeSearchResult) (d : String) (scr : ScrapeResult) (rd0 : RecipeData)
    (rest : List RecipeSearchResult) (le : Option String)
    (hurl : env.parseUrl sr.url = some d)
    (hscr : env.scrape sr.url = .ok scr)
    (hlen : ¬scr.content.length < 200)
    (hfmt : env.format scr.content sr.url none = .ok rd0) :
    evalCandidate env none sr = .passed (attachImage rd0 scr)
    ∧ tryCandidates env none (sr :: rest) le = .success (attachImage rd0 scr) sr.url := by
  have h1 : evalCandidate env none sr = .passed (attachImage rd0 scr) := by
    have heq := evalCandidate_eq_applyGates env none sr d scr rd0 hurl hscr hlen hfmt
    rw [heq]
    simp only [applyGates]
  refine ⟨h1, ?_⟩
  rw [tryCandidates, h1]

set_option maxRecDepth 8000 in
/-- Witness for C9: with no profile, a candidate formatting to a recipe
that contains an allergen term passes and is accepted unchanged. -/
theorem claim_C9_witness :
    evalCandidate (envOk rdPeanut) none candA = .passed (attachImage rdPeanut scrOk)
    ∧ tryCandidates (envOk rdPeanut) none [candA] none
        = .success (attachImage rdPeanut scrOk) candA.url :=
  claim_C9_no_profile_no_gates (envOk rdPeanut) candA "example.com" scrOk rdPeanut
    [] none rfl rfl (by decide) rfl

/-- Claim C7: result resolution is deduplicated by the key
`(userID, lowercase(sourceUrl))`. Resolving the same user and URL a
second time (even with different letter case) returns the same record —
same id, same conversation (the second conversation is NOT attached
since one is already present) — and creates no second record; and in
general, when the first matching record lacks a conversation, the
conversation is attached to it. -/
theorem claim_C7_dedup_idempotent (store : List Recipe)
    (u url1 url2 cid1 cid2 : String) (rd1 rd2 : RecipeData) (id1 id2 t1 t2 : String)
    (hkey : toLowerStr url2 = toLowerStr url1)
    (hfresh : ∀ r ∈ store, matchesDedupKey u (toLowerStr url1) r = false) :
    ((resolveRecipe (resolveRecipe store u url1 cid1 rd1 id1 t1).2 u url2 cid2 rd2 id2 t2).1
        = (resolveRecipe store u url1 cid1 rd1 id1 t1).1
      ∧ (resolveRecipe (resolveRecipe store u url1 cid1 rd1 id1 t1).2 u url2 cid2 rd2 id2 t2).2
        = (resolveRecipe store u url1 cid1 rd1 id1 t1).2
      ∧ (resolveRecipe store u url1 cid1 rd1 id1 t1).2.length = store.length + 1
      ∧ (resolveRecipe (resolveRecipe store u url1 cid1 rd1 id1 t1).2 u url2 cid2 rd2 id2 t2).1.conversationID
        = some cid1)
    ∧ ∀ (store2 : List Recipe) (r0 : Recipe) (rest : List Recipe)
        (u2 url0 cid0 : String) (rd0 : RecipeData) (idX tX : String),
        store2.filter (matchesDedupKey u2 (toLowerStr url0)) = r0 :: rest →
        r0.conversationID = none →
        (resolveRecipe store2 u2 url0 cid0 rd0 idX tX).1
          = { r0 with conversationID := some cid0 } := by
  constructor
  · have hfil : store.filter (matchesDedupKey u (toLowerStr url1)) = [] :=
      List.filter_eq_nil_iff.mpr (fun r hr => by rw [hfresh r hr]; simp)
    have h1 : resolveRecipe store u url1 cid1 rd1 id1 t1
        = (mkStoredRecipe u url1 cid1 rd1 id1 t1,
           store ++ [mkStoredRecipe u url1 cid1 rd1 id1 t1]) := by
      unfold resolveRecipe
      rw [hfil]
    have hmatch : matchesDedupKey u (toLowerStr url1) (mkStoredRecipe u url1 cid1 rd1 id1 t1)
        = true := by
      simp [matchesDedupKey, mkStoredRecipe]
    have h2 : (store ++ [mkStoredRecipe u url1 cid1 rd1 id1 t1]).filter
        (matchesDedupKey u (toLowerStr url2)) = [mkStoredRecipe u url1 cid1 rd1 id1 t1] := by
      rw [hkey, List.filter_append, hfil]
      simp [hmatch]
    have h3 : resolveRecipe (store ++ [mkStoredRecipe u url1 cid1 rd1 id1 t1])
        u url2 cid2 rd2 id2 t2
        = (mkStoredRecipe u url1 cid1 rd1 id1 t1,
           store ++ [mkStoredRecipe u url1 cid1 rd1 id1 t1]) := by
      unfold resolveRecipe
      rw [h2]
      rfl
    rw [h1]
    refine ⟨?_, ?_, by simp, ?_⟩
    · rw [h3]
    · rw [h3]
    · rw [h3]
      rfl
  · intro store2 r0 rest u2 url0 cid0 rd0 idX tX hfil0 hnone
    have hre : resolveRecipe store2 u2 url0 cid0 rd0 idX tX
        = ({ r0 with conversationID := some cid0 },
           store2.map fun (x : Recipe) =>
             if x.id == r0.id && x.userID == u2 then
               { r0 with conversationID := some cid0 }
             else x) := by
      unfold resolveRecipe
      rw [hfil0]
      show (match r0.conversationID with
        | none =>
          ({ r0 with conversationID := some cid0 },
           store2.map fun (x : Recipe) =>
             if x.id == r0.id && x.userID == u2 then
               { r0 with conversationID := some cid0 }
             else x)
        | some _ => (r0, store2)) = _
      rw [hnone]
    rw [hre]

set_option maxRecDepth 8000 in
/-- Witness for C7: on an empty store, resolving
`https://Ex.example/A` then `https://ex.example/a` (same key after
lowercasing) returns the record created by the first call, and on a
one-record store whose record lacks a conversation, resolving attaches
it. -/
theorem claim_C7_witness :
    (resolveRecipe (resolveRecipe [] "u1" "https://Ex.example/A" "c1" rdClean "id1" "t1").2
        "u1" "https://ex.example/a" "c2" rdPeanut "id2" "t2").1
      = (resolveRecipe [] "u1" "https://Ex.example/A" "c1" rdClean "id1" "t1").1
    ∧ (resolveRecipe [recStored] "uS" "https://s.example/r" "c9" rdClean "idX" "tX").1
      = { recStored with conversationID := some "c9" } :=
  ⟨(claim_C7_dedup_idempotent [] "u1" "https://Ex.example/A" "https://ex.example/a"
      "c1" "c2" rdClean rdPeanut "id1" "id2" "t1" "t2" (by decide) (by simp)).1.1,
   (claim_C7_dedup_idempotent [] "u1" "https://Ex.example/A" "https://ex.example/a"
      "c1" "c2" rdClean rdPeanut "id1" "id2" "t1" "t2" (by decide) (by simp)).2
      [recStored] recStored [] "uS" "https://s.example/r" "c9" rdClean "idX" "tX"
      (by decide) rfl⟩

/-- Counterexample to claim C10 as stated: the fallback path titles
every candidate with the raw search query, so an empty search query
yields a returned candidate whose title is the empty string. -/
theorem claim_C10_counterexample :
    searchRecipeFallback "" ["https://ex.com/recipe"]
      = .ok [{ title := "", url := "https://ex.com/recipe",
               snippet := "Recipe found via web search" }] := by
  decide

/-- Claim C10 (amended): every candidate returned on the JSON path has
a non-empty url and a non-empty title (entries lacking either are
filtered out, and the JSON path throws when none remain); every
candidate returned on the fallback path has a non-empty url, a title
equal to the original search query (hence non-empty exactly when the
query is) and the fixed snippet. -/
theorem claim_C10_result_validity :
    (∀ (parsed : List (Option ParsedRecipeEntry)) (l : List RecipeSearchResult),
        searchRecipeJsonPath parsed = .ok l →
        ∀ r ∈ l, r.url ≠ "" ∧ r.title ≠ "")
    ∧ (∀ (searchQuery : String) (urlMatches : List String) (l : List RecipeSearchResult),
        searchRecipeFallback searchQuery urlMatches = .ok l →
        ∀ r ∈ l, r.url ≠ "" ∧ r.title = searchQuery
          ∧ r.snippet = "Recipe found via web search")
    ∧ ∀ (parsed : List (Option ParsedRecipeEntry)),
        validSearchEntries parsed = [] →
        searchRecipeJsonPath parsed = .error "No valid recipe results found in parsed JSON" := by
  refine ⟨?_, ?_, ?_⟩
  · intro parsed l h r hr
    rw [searchRecipeJsonPath] at h
    split at h
    · cases h
    · simp only [Except.ok.injEq] at h
      rw [← h] at hr
      rcases List.mem_filterMap.mp hr with ⟨entry, _, hval⟩
      rw [validEntry.eq_def] at hval
      split at hval
      · cases hval
      · split at hval
        · split at hval
          · cases hval
          · rename_i hcond
            simp only [Option.some.injEq] at hval
            push_neg at hcond
            rw [← hval]
            exact ⟨hcond.1, hcond.2⟩
        · cases hval
  · intro searchQuery urlMatches l h r hr
    rw [searchRecipeFallback.eq_def] at h
    split at h
    · cases h
    · simp only [Except.ok.injEq] at h
      rw [← h] at hr
      rcases List.mem_map.mp hr with ⟨url, _, hurl⟩
      rw [← hurl]
      exact ⟨cleanUrl_ne_empty url, rfl, rfl⟩
  · intro parsed hempty
    rw [searchRecipeJsonPath, hempty]

/-- Witness for the amended C10: concrete applications of all three
parts — a valid JSON entry yields a candidate with non-empty url and
title, a fallback match yields the query title and fixed snippet, and
an all-invalid parse makes the JSON path throw. -/
theorem claim_C10_witness :
    (jsonResultW.url ≠ "" ∧ jsonResultW.title ≠ "")
    ∧ (fallbackResultW.url ≠ "" ∧ fallbackResultW.title = "pasta"
        ∧ fallbackResultW.snippet = "Recipe found via web search")
    ∧ searchRecipeJsonPath [none]
        = .error "No valid recipe results found in parsed JSON" :=
  ⟨claim_C10_result_validity.1 [jsonEntryW] [jsonResultW] (by decide) jsonResultW (by decide),
   claim_C10_result_validity.2.1 "pasta" ["b.com/food"] [fallbackResultW] (by decide)
     fallbackResultW (by decide),
   claim_C10_result_validity.2.2 [none] (by decide)⟩

end Plateful
